import Mathlib

/-!
Verification development for the marketo-mcp repository.

The definitions below are a shallow embedding of the authenticated request
pipeline: the error sanitizer `sanitizeErrorMessage`, the request helper
`makeApiRequest` (both from src/index.ts), the configuration validation
`validateMarketoUrl` and the credential check (src/constants.ts), and a
model of the `TokenManager` single-flight token cache (src/auth.ts, whose
source file is not part of the snapshot; it is modelled from the spec).
-/

/-- Model of a JSON-compatible JavaScript value (the TypeScript `any` values
that flow through request/response bodies).  `undef` models JavaScript
`undefined`, which is distinct from `null`. -/
inductive Json where
  | null : Json
  | undef : Json
  | bool (b : Bool) : Json
  | num (n : Int) : Json
  | str (s : String) : Json
  | arr (elems : List Json) : Json
  | obj (fields : List (String × Json)) : Json

/-- JavaScript `String(v)` coercion, as applied by `URLSearchParams` to each
value of the request-data object (array elements that are null/undefined
render as the empty string, per `Array.prototype.join`). -/
def jsToString : Json → String
  | Json.null => "null"
  | Json.undef => "undefined"
  | Json.bool b => if b then "true" else "false"
  | Json.num n => toString n
  | Json.str s => s
  | Json.arr l => String.intercalate "," (l.attach.map fun x =>
      match x with
      | ⟨Json.null, _⟩ => ""
      | ⟨Json.undef, _⟩ => ""
      | ⟨j, _⟩ => jsToString j)
  | Json.obj _ => "[object Object]"

/-- UTF-8 byte sequence of a character, written over `Nat` byte values. -/
def charUtf8Bytes (c : Char) : List Nat :=
  let n := c.toNat
  if n < 128 then [n]
  else if n < 2048 then [192 + n / 64, 128 + n % 64]
  else if n < 65536 then [224 + n / 4096, 128 + (n / 64) % 64, 128 + n % 64]
  else [240 + n / 262144, 128 + (n / 4096) % 64, 128 + (n / 64) % 64, 128 + n % 64]

/-- UTF-8 byte sequence of a string. -/
def strUtf8Bytes (s : String) : List Nat :=
  (s.data.map charUtf8Bytes).flatten

/-- Uppercase hexadecimal digit for a value below 16. -/
def hexDigit (n : Nat) : Char :=
  if n < 10 then Char.ofNat (48 + n) else Char.ofNat (55 + n)

/-- Whether a byte is kept verbatim by the `application/x-www-form-urlencoded`
serializer used by `URLSearchParams.toString()`: ASCII alphanumerics and
`*`, `-`, `.`, `_`. -/
def urlencodedSafe (b : Nat) : Bool :=
  (48 ≤ b && b ≤ 57) || (65 ≤ b && b ≤ 90) || (97 ≤ b && b ≤ 122) ||
    b = 42 || b = 45 || b = 46 || b = 95

/-- Encoding of one byte by the form-urlencoded serializer: space becomes
`+`, safe bytes pass through, everything else is percent-escaped. -/
def percentEncodeByte (b : Nat) : String :=
  if b = 32 then "+"
  else if urlencodedSafe b then String.singleton (Char.ofNat b)
  else "%" ++ String.singleton (hexDigit (b / 16)) ++ String.singleton (hexDigit (b % 16))

/-- `URLSearchParams` percent-encoding of one string component. -/
def urlencodeStr (s : String) : String :=
  String.join ((strUtf8Bytes s).map percentEncodeByte)

/-- `new URLSearchParams(pairs).toString()`: `key=value` pairs joined by `&`,
keys and values percent-encoded. -/
def formUrlEncode (pairs : List (String × String)) : String :=
  String.intercalate "&" (pairs.map fun p => urlencodeStr p.1 ++ "=" ++ urlencodeStr p.2)

/-- Whether `needle` occurs at the head of `hay` (character lists). -/
def matchesAt (needle hay : List Char) : Bool :=
  match needle, hay with
  | [], _ => true
  | _ :: _, [] => false
  | n :: ns, h :: hs => n == h && matchesAt ns hs

/-- Whether `needle` occurs anywhere inside `hay` (character lists);
models JavaScript `String.prototype.includes`. -/
def containsSub (hay needle : List Char) : Bool :=
  match hay with
  | [] => needle.isEmpty
  | _ :: rest => matchesAt needle hay || containsSub rest needle

/-- JavaScript `hay.includes(needle)` over strings. -/
def strContains (hay needle : String) : Bool :=
  containsSub hay.data needle.data

/-- Model of the axios error object as observed by `sanitizeErrorMessage`
(src/index.ts).  `status`/`statusText` come from `error.response` (absent
when the request never produced a response), `code` and `message` from the
error itself.  `responseBody` is the raw `error.response.data` payload and
`bearerToken` the credential attached to the failed request; the sanitizer
must never read either, and carrying them in the model lets us state that. -/
structure AxiosError where
  status : Option Nat
  statusText : Option String
  responseBody : String
  code : Option String
  message : Option String
  bearerToken : String

/-- The `statusText || 'Unknown error'` expression of src/index.ts line 21
(JavaScript `||`: an absent or empty statusText falls back). -/
def statusTextOrDefault : Option String → String
  | some t => if t = "" then "Unknown error" else t
  | none => "Unknown error"

/-- The `switch (status)` of src/index.ts lines 24-39, entered when
`error.response?.status` is truthy. -/
def sanitizeStatusError (status : Nat) (stText : Option String) : String :=
  if status = 401 then "Authentication failed. Please check your Marketo credentials."
  else if status = 403 then "Access denied. Insufficient permissions for this operation."
  else if status = 404 then "Resource not found."
  else if status = 429 then "Rate limit exceeded. Please try again later."
  else if status = 500 ∨ status = 502 ∨ status = 503 then
    "Marketo service temporarily unavailable. Please try again later."
  else
    "Request failed with status " ++ toString status ++ ": " ++ statusTextOrDefault stText

/-- The `error.message?.includes('timeout')` test of src/index.ts line 47
(an absent message is falsy). -/
def messageMentionsTimeout : Option String → Bool
  | some m => strContains m "timeout"
  | none => false

/-- The network-error fallback chain of src/index.ts lines 42-52, reached
when the error carries no (truthy) response status. -/
def sanitizeNetworkError (code : Option String) (message : Option String) : String :=
  if code = some "ECONNREFUSED" ∨ code = some "ENOTFOUND" then
    "Unable to connect to Marketo. Please check your network connection and MARKETO_BASE_URL."
  else if code = some "ECONNABORTED" ∨ messageMentionsTimeout message = true then
    "Request timed out. Please try again."
  else
    "An error occurred while processing your request."

/-- `sanitizeErrorMessage` from src/index.ts lines 17-53.  The
`error.response?.status` truthiness test sends status 0 (and an absent
response) to the network-error chain. -/
def sanitizeErrorMessage (e : AxiosError) : String :=
  match e.status with
  | some status =>
      if status = 0 then sanitizeNetworkError e.code e.message
      else sanitizeStatusError status e.statusText
  | none => sanitizeNetworkError e.code e.message

/-- Request timeout in milliseconds, from src/constants.ts. -/
def API_REQUEST_TIMEOUT : Nat := 30000

/-- The fields of a parsed WHATWG URL that `validateMarketoUrl` inspects.
URL parsing itself is done by the Node.js `URL` builtin, which is external
to the repository; it is abstracted as a `String → Option ParsedUrl`
function (`none` models the constructor throwing). -/
structure ParsedUrl where
  protocol : String
  hostname : String

/-- The `url.replace(/\/+$/, '')` expression of src/constants.ts: remove
the maximal run of trailing slash characters. -/
def stripTrailingSlashes (s : String) : String :=
  String.mk ((s.data.reverse.dropWhile (fun c => c = '/')).reverse)

/-- `validateMarketoUrl` from src/constants.ts lines 9-36, parameterized by
the external URL parser.  The non-Marketo-domain branch only emits a
console warning and does not affect the returned value, so it is not
modelled. -/
def validateMarketoUrl (parseUrl : String → Option ParsedUrl) (url : String) :
    Except String String :=
  if url = "" then
    Except.error "MARKETO_BASE_URL environment variable is required"
  else
    match parseUrl url with
    | none => Except.error ("MARKETO_BASE_URL is not a valid URL: " ++ url)
    | some p =>
        if p.protocol ≠ "https:" then
          Except.error "MARKETO_BASE_URL must use HTTPS protocol for security"
        else
          Except.ok (stripTrailingSlashes url)

/-- The environment configuration the process starts from. -/
structure MarketoConfig where
  baseUrl : String
  clientId : String
  clientSecret : String

/-- Module initialization: importing src/constants.ts runs
`validateMarketoUrl` on the base URL, then src/index.ts lines 55-57 throw
when the client id or client secret is empty (JavaScript falsy check on
strings).  Returns the validated base URL and the credential pair, or the
thrown error message. -/
def initCore (parseUrl : String → Option ParsedUrl) (cfg : MarketoConfig) :
    Except String (String × String × String) :=
  match validateMarketoUrl parseUrl cfg.baseUrl with
  | Except.error e => Except.error e
  | Except.ok base =>
      if cfg.clientId = "" ∨ cfg.clientSecret = "" then
        Except.error
          "MARKETO_CLIENT_ID and MARKETO_CLIENT_SECRET environment variables are required"
      else
        Except.ok (base, cfg.clientId, cfg.clientSecret)

/-- Whether `initCore` completes without throwing. -/
def constructionSucceeds (parseUrl : String → Option ParsedUrl) (cfg : MarketoConfig) : Prop :=
  ∃ v, initCore parseUrl cfg = Except.ok v

/-- The body value handed to axios: either the data object as-is (JSON
requests) or the already-serialized form-urlencoded string. -/
inductive RequestBody where
  | jsonBody (fields : List (String × Json)) : RequestBody
  | rawBody (s : String) : RequestBody

/-- The outbound HTTP request assembled by `makeApiRequest`. -/
structure HttpRequest where
  url : String
  method : String
  body : Option RequestBody
  headers : List (String × String)
  timeout : Nat

/-- Outcome of one axios call: a decoded JSON response body, or a thrown
error. -/
inductive HttpResult where
  | success (data : Json) : HttpResult
  | failure (e : AxiosError) : HttpResult

/-- `new URLSearchParams(data).toString()` applied to the request data:
`URLSearchParams(undefined)` serializes to the empty string, an object
serializes each field with `String(value)` and percent-encodes. -/
def urlSearchParamsOfData : Option (List (String × Json)) → String
  | none => ""
  | some ps => formUrlEncode (ps.map fun p => (p.1, jsToString p.2))

/-- The axios request constructed by `makeApiRequest` (src/index.ts lines
84-93): URL concatenation, form serialization for
`application/x-www-form-urlencoded` and pass-through otherwise, the
Authorization header, the Content-Type header when `contentType` is truthy,
and the fixed timeout. -/
def buildRequest (baseUrl token endpoint method : String)
    (data : Option (List (String × Json))) (contentType : String) : HttpRequest :=
  { url := baseUrl ++ endpoint
    method := method
    body :=
      if contentType = "application/x-www-form-urlencoded" then
        some (RequestBody.rawBody (urlSearchParamsOfData data))
      else
        data.map RequestBody.jsonBody
    headers :=
      ("Authorization", "Bearer " ++ token) ::
        (if contentType ≠ "" then [("Content-Type", contentType)] else [])
    timeout := API_REQUEST_TIMEOUT }

/-- The `error.code || error.message` interpolation of the diagnostic log
line (src/index.ts line 97); an absent message interpolates as the string
`undefined`. -/
def errCodeOrMessage (e : AxiosError) : String :=
  match e.code with
  | some c => if c = "" then (match e.message with
      | some m => m
      | none => "undefined") else c
  | none => match e.message with
      | some m => m
      | none => "undefined"

/-- `makeApiRequest` from src/index.ts lines 68-100, after the token has
been obtained: build the request, perform exactly one transport call, and
either return the decoded `response.data` unmodified or log one diagnostic
line and rethrow the error.  The second component is the trace of outbound
HTTP requests issued, the third the emitted log lines. -/
def makeApiRequest (transport : HttpRequest → HttpResult) (baseUrl token : String)
    (endpoint : String) (method : String)
    (data : Option (List (String × Json)) := none)
    (contentType : String := "application/json") :
    Except AxiosError Json × List HttpRequest × List String :=
  let req := buildRequest baseUrl token endpoint method data contentType
  match transport req with
  | HttpResult.success d => (Except.ok d, [req], [])
  | HttpResult.failure e =>
      (Except.error e, [req],
        ["API request failed: " ++ method ++ " " ++ endpoint ++ " - " ++ errCodeOrMessage e])

/-- Modelled from the spec: the `AccessToken` value object of TokenManager
(src/auth.ts, not present in the snapshot) — a bearer token string together
with its absolute expiry instant, in seconds. -/
structure AccessToken where
  token : String
  expiresAt : Nat

/-- Modelled from the spec: the recommended 60-second safety margin before
expiry within which a cached token is treated as absent. -/
def TOKEN_SAFETY_MARGIN : Nat := 60

/-- Modelled from the spec: a cached token is usable without a network call
exactly when its expiry lies more than the safety margin in the future. -/
def tokenUsable (t : AccessToken) (now : Nat) : Bool :=
  now + TOKEN_SAFETY_MARGIN < t.expiresAt

/-- Modelled from the spec: TokenManager's mutable state — the cached
AccessToken and the at-most-one PendingRefresh, represented by the ids of
the callers awaiting it. -/
structure TMState where
  cached : Option AccessToken
  pending : Option (List Nat)

/-- Outcome of the synchronous check-phase of one `getToken()` call. -/
inductive StepResult where
  | fromCache (token : String) : StepResult
  | attached : StepResult
  | launched : StepResult

/-- Modelled from the spec: the atomic (no suspension point) check phase of
one `getToken()` call under cooperative single-threaded scheduling: reuse a
usable cached token, else attach to an existing PendingRefresh, else create
the PendingRefresh and issue the one token-endpoint request.  The last
component counts token-endpoint requests issued by this step. -/
def getTokenCheck (now : Nat) (callerId : Nat) (s : TMState) :
    TMState × StepResult × Nat :=
  match s.cached with
  | some t =>
      if tokenUsable t now then (s, StepResult.fromCache t.token, 0)
      else
        match s.pending with
        | some ws => ({ s with pending := some (ws ++ [callerId]) }, StepResult.attached, 0)
        | none => ({ s with pending := some [callerId] }, StepResult.launched, 1)
  | none =>
      match s.pending with
      | some ws => ({ s with pending := some (ws ++ [callerId]) }, StepResult.attached, 0)
      | none => ({ s with pending := some [callerId] }, StepResult.launched, 1)

/-- Modelled from the spec: N concurrent `getToken()` calls interleave their
check phases in arrival order (each check phase is atomic); returns the
final state, the total number of token-endpoint requests issued, and each
caller's step outcome. -/
def runGetTokenCalls (now : Nat) (s : TMState) (ids : List Nat) :
    TMState × Nat × List (Nat × StepResult) :=
  match ids with
  | [] => (s, 0, [])
  | id :: rest =>
      let step := getTokenCheck now id s
      let tail := runGetTokenCalls now step.1 rest
      (tail.1, step.2.2 + tail.2.1, (id, step.2.1) :: tail.2.2)

/-- Modelled from the spec: settlement of the PendingRefresh.  On success
the cached token is replaced and every waiter resolves with the same token
value; on failure the cached token is left untouched and every waiter
observes the same error; in both cases the pending slot is cleared. -/
def resolveRefresh (s : TMState) (outcome : Except String AccessToken) :
    TMState × List (Nat × Except String String) :=
  match s.pending with
  | none => (s, [])
  | some ws =>
      match outcome with
      | Except.ok t =>
          ({ cached := some t, pending := none }, ws.map fun w => (w, Except.ok t.token))
      | Except.error err =>
          ({ s with pending := none }, ws.map fun w => (w, Except.error err))

/-- Modelled from the spec: "no valid cached token exists" — the cache is
empty or the cached token is within the safety margin of expiry. -/
def noUsableToken (s : TMState) (now : Nat) : Prop :=
  match s.cached with
  | none => True
  | some t => tokenUsable t now = false

theorem sanitizeErrorMessage_hidden_fields (e : AxiosError) (body tok : String) :
    sanitizeErrorMessage { e with responseBody := body, bearerToken := tok } =
      sanitizeErrorMessage e := by
  cases e
  rfl

theorem sanitizeErrorMessage_of_status (e : AxiosError) (s : Nat)
    (hs : e.status = some s) (h0 : s ≠ 0) :
    sanitizeErrorMessage e = sanitizeStatusError s e.statusText := by
  simp [sanitizeErrorMessage, hs, h0]

theorem sanitizeErrorMessage_at_401 (e : AxiosError) (hs : e.status = some 401) :
    sanitizeErrorMessage e = "Authentication failed. Please check your Marketo credentials." := by
  rw [sanitizeErrorMessage_of_status e 401 hs (by decide)]
  rfl

/-- Claim C1: for every error whose HTTP status is in \{401, 403, 404, 429,
500, 502, 503\}, and for connection-refused (ECONNREFUSED/ENOTFOUND) and
timeout (ECONNABORTED or a message containing "timeout") conditions
arising without a response status, `sanitizeErrorMessage` returns the
fixed generic message of the corresponding taxonomy kind; and for every
error whatsoever the result is independent of the response body and of the
bearer token, so no substring of either can flow into it. -/
theorem sanitizeErrorMessage_totality (e : AxiosError) :
    (e.status = some 401 →
      sanitizeErrorMessage e = "Authentication failed. Please check your Marketo credentials.") ∧
    (e.status = some 403 →
      sanitizeErrorMessage e = "Access denied. Insufficient permissions for this operation.") ∧
    (e.status = some 404 → sanitizeErrorMessage e = "Resource not found.") ∧
    (e.status = some 429 →
      sanitizeErrorMessage e = "Rate limit exceeded. Please try again later.") ∧
    ((e.status = some 500 ∨ e.status = some 502 ∨ e.status = some 503) →
      sanitizeErrorMessage e =
        "Marketo service temporarily unavailable. Please try again later.") ∧
    ((e.status = none ∨ e.status = some 0) →
      (e.code = some "ECONNREFUSED" ∨ e.code = some "ENOTFOUND") →
      sanitizeErrorMessage e =
        "Unable to connect to Marketo. Please check your network connection and MARKETO_BASE_URL.") ∧
    ((e.status = none ∨ e.status = some 0) →
      e.code ≠ some "ECONNREFUSED" → e.code ≠ some "ENOTFOUND" →
      (e.code = some "ECONNABORTED" ∨ messageMentionsTimeout e.message = true) →
      sanitizeErrorMessage e = "Request timed out. Please try again.") ∧
    (∀ body tok : String,
      sanitizeErrorMessage { e with responseBody := body, bearerToken := tok } =
        sanitizeErrorMessage e) := by
  have hnet : (e.status = none ∨ e.status = some 0) →
      sanitizeErrorMessage e = sanitizeNetworkError e.code e.message := by
    rintro (h | h) <;> simp [sanitizeErrorMessage, h]
  refine ⟨?_, ?_, ?_, ?_, ?_, ?_, ?_, ?_⟩
  · intro h; exact sanitizeErrorMessage_at_401 e h
  · intro h; rw [sanitizeErrorMessage_of_status e 403 h (by decide)]; rfl
  · intro h; rw [sanitizeErrorMessage_of_status e 404 h (by decide)]; rfl
  · intro h; rw [sanitizeErrorMessage_of_status e 429 h (by decide)]; rfl
  · rintro (h | h | h)
    · rw [sanitizeErrorMessage_of_status e 500 h (by decide)]; rfl
    · rw [sanitizeErrorMessage_of_status e 502 h (by decide)]; rfl
    · rw [sanitizeErrorMessage_of_status e 503 h (by decide)]; rfl
  · intro hst hcode
    rw [hnet hst]
    rcases hcode with h | h <;> simp [sanitizeNetworkError, h]
  · intro hst h1 h2 hcond
    rw [hnet hst]
    rcases hcond with h | h
    · simp [sanitizeNetworkError, h]
    · have hne : ¬(e.code = some "ECONNREFUSED" ∨ e.code = some "ENOTFOUND") := by
        rintro (hc | hc)
        · exact h1 hc
        · exact h2 hc
      simp [sanitizeNetworkError, hne, h]
  · intro body tok; exact sanitizeErrorMessage_hidden_fields e body tok

theorem sanitizeErrorMessage_totality_witness :
    sanitizeErrorMessage ⟨some 401, some "Unauthorized", "raw body", none, none, "tk"⟩ =
      "Authentication failed. Please check your Marketo credentials." ∧
    sanitizeErrorMessage ⟨some 429, none, "raw body", none, none, "tk"⟩ =
      "Rate limit exceeded. Please try again later." ∧
    sanitizeErrorMessage ⟨some 503, none, "raw body", none, none, "tk"⟩ =
      "Marketo service temporarily unavailable. Please try again later." ∧
    sanitizeErrorMessage ⟨none, none, "", some "ECONNREFUSED", none, "tk"⟩ =
      "Unable to connect to Marketo. Please check your network connection and MARKETO_BASE_URL." ∧
    sanitizeErrorMessage ⟨none, none, "", none, some "timeout of 30000ms exceeded", "tk"⟩ =
      "Request timed out. Please try again." :=
  ⟨(sanitizeErrorMessage_totality _).1 rfl,
   (sanitizeErrorMessage_totality _).2.2.2.1 rfl,
   (sanitizeErrorMessage_totality _).2.2.2.2.1 (Or.inr (Or.inr rfl)),
   (sanitizeErrorMessage_totality _).2.2.2.2.2.1 (Or.inl rfl) (Or.inl rfl),
   (sanitizeErrorMessage_totality _).2.2.2.2.2.2.1 (Or.inl rfl) (by decide) (by decide)
     (Or.inr (by decide))⟩

/-- A 504 error used to refute the "every 5xx" reading of the upstream
taxonomy row. -/
def gatewayError504 : AxiosError :=
  { status := some 504, statusText := some "Gateway Timeout", responseBody := "raw body",
    code := none, message := some "Request failed with status code 504", bearerToken := "tk" }

/-- Claim C3 counterexample: a business-call error with HTTP status 504 (a
5xx status) is not sanitized to the UpstreamUnavailable generic message —
it falls through to the default branch. -/
theorem sanitize_5xx_counterexample :
    sanitizeErrorMessage gatewayError504 ≠
      "Marketo service temporarily unavailable. Please try again later." := by
  decide

/-- Claim C3 (amended): for every business-call error carrying HTTP status
500, 502 or 503, the sanitized error is the UpstreamUnavailable generic
"service unavailable, retry later" message; other 5xx statuses (such as
501 or 504) instead reach the Unknown fallback. -/
theorem sanitize_upstream_unavailable (e : AxiosError)
    (h : e.status = some 500 ∨ e.status = some 502 ∨ e.status = some 503) :
    sanitizeErrorMessage e =
      "Marketo service temporarily unavailable. Please try again later." := by
  rcases h with h | h | h
  · rw [sanitizeErrorMessage_of_status e 500 h (by decide)]; rfl
  · rw [sanitizeErrorMessage_of_status e 502 h (by decide)]; rfl
  · rw [sanitizeErrorMessage_of_status e 503 h (by decide)]; rfl

theorem sanitize_upstream_unavailable_witness :
    sanitizeErrorMessage ⟨some 502, some "Bad Gateway", "raw body", none, none, "tk"⟩ =
      "Marketo service temporarily unavailable. Please try again later." :=
  sanitize_upstream_unavailable _ (Or.inr (Or.inl rfl))

/-- Claim C9: for every error response whose (truthy) status matches no
listed taxonomy row, the sanitized string is the fallback carrying the
numeric status code — the status's decimal rendering occurs in it — and
the result is independent of the response body (and bearer token). -/
theorem sanitize_unknown_status (e : AxiosError) (s : Nat)
    (hs : e.status = some s) (h0 : s ≠ 0)
    (hn : s ∉ ([401, 403, 404, 429, 500, 502, 503] : List Nat)) :
    sanitizeErrorMessage e =
      "Request failed with status " ++ toString s ++ ": " ++
        statusTextOrDefault e.statusText ∧
    (toString s).data <:+: (sanitizeErrorMessage e).data ∧
    (∀ body tok : String,
      sanitizeErrorMessage { e with responseBody := body, bearerToken := tok } =
        sanitizeErrorMessage e) := by
  simp only [List.mem_cons, List.not_mem_nil, or_false, not_or] at hn
  obtain ⟨h1, h2, h3, h4, h5, h6, h7⟩ := hn
  have heq : sanitizeErrorMessage e =
      "Request failed with status " ++ toString s ++ ": " ++
        statusTextOrDefault e.statusText := by
    rw [sanitizeErrorMessage_of_status e s hs h0]
    simp [sanitizeStatusError, h1, h2, h3, h4, h5, h6, h7]
  refine ⟨heq, ?_, fun body tok => sanitizeErrorMessage_hidden_fields e body tok⟩
  rw [heq]
  refine ⟨("Request failed with status ").data,
    (": " ++ statusTextOrDefault e.statusText).data, ?_⟩
  simp [String.data_append]

theorem sanitize_unknown_status_witness :
    sanitizeErrorMessage ⟨some 418, none, "raw body", none, none, "tk"⟩ =
      "Request failed with status " ++ toString 418 ++ ": " ++ statusTextOrDefault none ∧
    (toString 418).data <:+:
      (sanitizeErrorMessage ⟨some 418, none, "raw body", none, none, "tk"⟩).data ∧
    (∀ body tok : String,
      sanitizeErrorMessage ⟨some 418, none, body, none, none, tok⟩ =
        sanitizeErrorMessage ⟨some 418, none, "raw body", none, none, "tk"⟩) :=
  sanitize_unknown_status _ 418 rfl (by decide) (by decide)

/-- Claim C4: for every successful HTTP call performed by `makeApiRequest`,
the value returned to the calling operation handler is the decoded
response body exactly as the transport returned it. -/
theorem makeApiRequest_passthrough (transport : HttpRequest → HttpResult)
    (baseUrl token endpoint method : String) (data : Option (List (String × Json)))
    (contentType : String) (d : Json)
    (h : transport (buildRequest baseUrl token endpoint method data contentType) =
      HttpResult.success d) :
    (makeApiRequest transport baseUrl token endpoint method data contentType).1 =
      Except.ok d := by
  simp [makeApiRequest, h]

theorem makeApiRequest_passthrough_witness :
    (makeApiRequest (fun _ => HttpResult.success (Json.obj [("success", Json.bool true)]))
        "https://x.mktorest.com" "T1" "/rest/v1/leads.json" "POST" none
        "application/json").1 =
      Except.ok (Json.obj [("success", Json.bool true)]) :=
  makeApiRequest_passthrough _ _ _ _ _ _ _ _ rfl

/-- Claim C5: when the business call fails with HTTP 401, `makeApiRequest`
issues no second outbound HTTP call — its trace is exactly the one business
request, with no token refresh and no retry — and the error the caller
receives sanitizes to the authentication-failure message. -/
theorem makeApiRequest_no_retry_on_401 (transport : HttpRequest → HttpResult)
    (baseUrl token endpoint method : String) (data : Option (List (String × Json)))
    (contentType : String) (e : AxiosError)
    (hfail : transport (buildRequest baseUrl token endpoint method data contentType) =
      HttpResult.failure e)
    (h401 : e.status = some 401) :
    (makeApiRequest transport baseUrl token endpoint method data contentType).1 =
      Except.error e ∧
    (makeApiRequest transport baseUrl token endpoint method data contentType).2.1 =
      [buildRequest baseUrl token endpoint method data contentType] ∧
    sanitizeErrorMessage e =
      "Authentication failed. Please check your Marketo credentials." := by
  refine ⟨?_, ?_, sanitizeErrorMessage_at_401 e h401⟩ <;> simp [makeApiRequest, hfail]

theorem makeApiRequest_no_retry_on_401_witness :
    (makeApiRequest
        (fun _ => HttpResult.failure ⟨some 401, some "Unauthorized", "raw body", none, none, "T1"⟩)
        "https://x.mktorest.com" "T1" "/rest/v1/leads.json" "POST" none
        "application/json").1 =
      Except.error ⟨some 401, some "Unauthorized", "raw body", none, none, "T1"⟩ ∧
    (makeApiRequest
        (fun _ => HttpResult.failure ⟨some 401, some "Unauthorized", "raw body", none, none, "T1"⟩)
        "https://x.mktorest.com" "T1" "/rest/v1/leads.json" "POST" none
        "application/json").2.1 =
      [buildRequest "https://x.mktorest.com" "T1" "/rest/v1/leads.json" "POST" none
        "application/json"] ∧
    sanitizeErrorMessage ⟨some 401, some "Unauthorized", "raw body", none, none, "T1"⟩ =
      "Authentication failed. Please check your Marketo credentials." :=
  makeApiRequest_no_retry_on_401 _ _ _ _ _ _ _ _ rfl rfl

/-- Claim C7: a request with contentType `application/x-www-form-urlencoded`
carries its body serialized as percent-encoded `key=value` pairs joined by
`&`; a JSON request carries the data object as-is; and an omitted
contentType defaults to `application/json`. -/
theorem makeApiRequest_body_encoding (baseUrl token endpoint method : String)
    (ps : List (String × Json)) :
    ((buildRequest baseUrl token endpoint method (some ps)
        "application/x-www-form-urlencoded").body =
      some (RequestBody.rawBody (String.intercalate "&" (ps.map fun p =>
        urlencodeStr p.1 ++ "=" ++ urlencodeStr (jsToString p.2))))) ∧
    ((buildRequest baseUrl token endpoint method (some ps) "application/json").body =
      some (RequestBody.jsonBody ps)) ∧
    (∀ (transport : HttpRequest → HttpResult) (d : Option (List (String × Json))),
      makeApiRequest transport baseUrl token endpoint method d =
        makeApiRequest transport baseUrl token endpoint method d "application/json") := by
  refine ⟨?_, ?_, fun transport d => rfl⟩
  · simp [buildRequest, urlSearchParamsOfData, formUrlEncode, List.map_map, Function.comp_def]
  · simp [buildRequest]

/-- Claim C6: construction of the core fails exactly when the base URL is
absent, unparseable, or not HTTPS, or the client id or client secret is
empty; it succeeds for every configuration with a parseable HTTPS base URL
and non-empty credentials. -/
theorem initCore_fail_fast (parseUrl : String → Option ParsedUrl) (cfg : MarketoConfig) :
    constructionSucceeds parseUrl cfg ↔
      (cfg.baseUrl ≠ "" ∧
       (∃ p, parseUrl cfg.baseUrl = some p ∧ p.protocol = "https:") ∧
       cfg.clientId ≠ "" ∧ cfg.clientSecret ≠ "") := by
  constructor
  · rintro ⟨v, hv⟩
    by_cases hurl : cfg.baseUrl = ""
    · simp [initCore, validateMarketoUrl, hurl] at hv
    · cases hp : parseUrl cfg.baseUrl with
      | none => simp [initCore, validateMarketoUrl, hurl, hp] at hv
      | some p =>
          by_cases hproto : p.protocol = "https:"
          · by_cases hid : cfg.clientId = ""
            · simp [initCore, validateMarketoUrl, hurl, hp, hproto, hid] at hv
            · by_cases hsec : cfg.clientSecret = ""
              · simp [initCore, validateMarketoUrl, hurl, hp, hproto, hid, hsec] at hv
              · exact ⟨hurl, ⟨p, rfl, hproto⟩, hid, hsec⟩
          · simp [initCore, validateMarketoUrl, hurl, hp, hproto] at hv
  · rintro ⟨hurl, ⟨p, hp, hproto⟩, hid, hsec⟩
    refine ⟨(stripTrailingSlashes cfg.baseUrl, cfg.clientId, cfg.clientSecret), ?_⟩
    simp [initCore, validateMarketoUrl, hurl, hp, hproto, hid, hsec]

theorem initCore_fail_fast_witness :
    constructionSucceeds (fun _ => some ⟨"https:", "x.mktorest.com"⟩)
      ⟨"https://x.mktorest.com/", "id123", "secret456"⟩ ∧
    ¬ constructionSucceeds (fun _ => some ⟨"http:", "x.mktorest.com"⟩)
      ⟨"http://x.mktorest.com/", "id123", "secret456"⟩ ∧
    ¬ constructionSucceeds (fun _ => some ⟨"https:", "x.mktorest.com"⟩)
      ⟨"https://x.mktorest.com/", "", "secret456"⟩ :=
  ⟨(initCore_fail_fast _ _).mpr ⟨by decide, ⟨⟨"https:", "x.mktorest.com"⟩, rfl, rfl⟩,
      by decide, by decide⟩,
   fun h => by
    have := (initCore_fail_fast (fun _ => some ⟨"http:", "x.mktorest.com"⟩)
      ⟨"http://x.mktorest.com/", "id123", "secret456"⟩).mp h
    exact absurd this.2.1 (by decide),
   fun h => by
    have := (initCore_fail_fast (fun _ => some ⟨"https:", "x.mktorest.com"⟩)
      ⟨"https://x.mktorest.com/", "", "secret456"⟩).mp h
    exact absurd this.2.2.1 (by decide)⟩

theorem getTokenCheck_attach (now id : Nat) (s : TMState) (ws : List Nat)
    (hc : noUsableToken s now) (hp : s.pending = some ws) :
    getTokenCheck now id s =
      ({ s with pending := some (ws ++ [id]) }, StepResult.attached, 0) := by
  unfold getTokenCheck
  cases hcached : s.cached with
  | none => simp [hp]
  | some t =>
      have hfalse : tokenUsable t now = false := by
        simp only [noUsableToken, hcached] at hc
        exact hc
      simp [hfalse, hp]

theorem runGetTokenCalls_attach (now : Nat) (ids : List Nat) :
    ∀ (s : TMState) (ws : List Nat), noUsableToken s now → s.pending = some ws →
      (runGetTokenCalls now s ids).1.cached = s.cached ∧
      (runGetTokenCalls now s ids).1.pending = some (ws ++ ids) ∧
      (runGetTokenCalls now s ids).2.1 = 0 := by
  induction ids with
  | nil => intro s ws _ hp; simp [runGetTokenCalls, hp]
  | cons id rest ih =>
      intro s ws hc hp
      have hstep := getTokenCheck_attach now id s ws hc hp
      have hc' : noUsableToken { s with pending := some (ws ++ [id]) } now := by
        simpa only [noUsableToken] using hc
      have htail := ih { s with pending := some (ws ++ [id]) } (ws ++ [id]) hc' rfl
      simp only [runGetTokenCalls, hstep] at *
      refine ⟨htail.1, ?_, by simpa using htail.2.2⟩
      rw [htail.2.1]
      simp

/-- Claim C2: for every N ≥ 2 `getToken()` calls whose check phases
interleave while no valid cached token exists and no refresh is pending,
exactly one request is issued to the token endpoint, every caller is
attached to the single PendingRefresh, and on settlement all N calls
observe the same token value (or all observe the same failure). -/
theorem getToken_single_flight (now : Nat) (s : TMState) (ids : List Nat)
    (hc : noUsableToken s now) (hp : s.pending = none) (hn : 2 ≤ ids.length) :
    (runGetTokenCalls now s ids).2.1 = 1 ∧
    (runGetTokenCalls now s ids).1.pending = some ids ∧
    (∀ t : AccessToken,
      (resolveRefresh (runGetTokenCalls now s ids).1 (Except.ok t)).2 =
        ids.map fun i => (i, Except.ok t.token)) ∧
    (∀ err : String,
      (resolveRefresh (runGetTokenCalls now s ids).1 (Except.error err)).2 =
        ids.map fun i => (i, Except.error err)) := by
  cases ids with
  | nil => simp at hn
  | cons id rest =>
      have hstep : getTokenCheck now id s =
          ({ s with pending := some [id] }, StepResult.launched, 1) := by
        unfold getTokenCheck
        cases hcached : s.cached with
        | none => simp [hp]
        | some t =>
            have hfalse : tokenUsable t now = false := by
              simp only [noUsableToken, hcached] at hc
              exact hc
            simp [hfalse, hp]
      have hc' : noUsableToken { s with pending := some [id] } now := by
        simpa only [noUsableToken] using hc
      have htail := runGetTokenCalls_attach now rest { s with pending := some [id] } [id] hc' rfl
      have hpend : (runGetTokenCalls now s (id :: rest)).1.pending = some (id :: rest) := by
        simp only [runGetTokenCalls, hstep]
        rw [htail.2.1]
        simp
      refine ⟨?_, hpend, ?_, ?_⟩
      · simp only [runGetTokenCalls, hstep]
        rw [htail.2.2]
      · intro t; simp [resolveRefresh, hpend]
      · intro err; simp [resolveRefresh, hpend]

theorem getToken_single_flight_witness :
    (runGetTokenCalls 100 ⟨none, none⟩ [1, 2, 3]).2.1 = 1 ∧
    (runGetTokenCalls 100 ⟨none, none⟩ [1, 2, 3]).1.pending = some [1, 2, 3] ∧
    (∀ t : AccessToken,
      (resolveRefresh (runGetTokenCalls 100 ⟨none, none⟩ [1, 2, 3]).1 (Except.ok t)).2 =
        [1, 2, 3].map fun i => (i, Except.ok t.token)) ∧
    (∀ err : String,
      (resolveRefresh (runGetTokenCalls 100 ⟨none, none⟩ [1, 2, 3]).1 (Except.error err)).2 =
        [1, 2, 3].map fun i => (i, Except.error err)) :=
  getToken_single_flight 100 ⟨none, none⟩ [1, 2, 3] trivial rfl (by decide)

/-- Claim C8: a `getToken()` call finding a cached token whose expiry lies
more than the safety margin in the future returns the cached value with no
network call and no state change; a call finding the cached token within
the margin (or past expiry), with no refresh pending, issues exactly one
refresh request. -/
theorem getToken_expiry (now id : Nat) (s : TMState) (t : AccessToken)
    (hc : s.cached = some t) :
    (now + TOKEN_SAFETY_MARGIN < t.expiresAt →
      getTokenCheck now id s = (s, StepResult.fromCache t.token, 0)) ∧
    (t.expiresAt ≤ now + TOKEN_SAFETY_MARGIN → s.pending = none →
      (getTokenCheck now id s).2.2 = 1 ∧
      (getTokenCheck now id s).2.1 = StepResult.launched ∧
      (getTokenCheck now id s).1.pending = some [id]) := by
  constructor
  · intro h
    have husable : tokenUsable t now = true := by
      simp [tokenUsable, h]
    simp [getTokenCheck, hc, husable]
  · intro h hp
    have husable : tokenUsable t now = false := by
      simp [tokenUsable]
      omega
    simp [getTokenCheck, hc, husable, hp]

theorem getToken_expiry_witness :
    getTokenCheck 100 7 ⟨some ⟨"T1", 3700⟩, none⟩ =
      (⟨some ⟨"T1", 3700⟩, none⟩, StepResult.fromCache "T1", 0) ∧
    ((getTokenCheck 3650 7 ⟨some ⟨"T1", 3700⟩, none⟩).2.2 = 1 ∧
      (getTokenCheck 3650 7 ⟨some ⟨"T1", 3700⟩, none⟩).2.1 = StepResult.launched ∧
      (getTokenCheck 3650 7 ⟨some ⟨"T1", 3700⟩, none⟩).1.pending = some [7]) :=
  ⟨(getToken_expiry 100 7 _ _ rfl).1 (by decide),
   (getToken_expiry 3650 7 _ _ rfl).2 (by decide) rfl⟩

theorem head_dropWhileFalse {α : Type} (p : α → Bool) (l : List α) (c : α)
    (h : (l.dropWhile p).head? = some c) : p c = false := by
  induction l with
  | nil => simp [List.dropWhile] at h
  | cons a rest ih =>
      by_cases hpa : p a = true
      · rw [List.dropWhile_cons_of_pos hpa] at h
        exact ih h
      · rw [List.dropWhile_cons_of_neg hpa] at h
        simp at h
        rw [← h]
        simpa using hpa

/-- Claim C10: every input accepted by `validateMarketoUrl` is returned
with the maximal run of trailing slash characters removed and is otherwise
identical — the input equals the returned value followed by some number of
`/` characters, and the returned value never ends with `/`. -/
theorem validateMarketoUrl_strips (parseUrl : String → Option ParsedUrl) (url v : String)
    (h : validateMarketoUrl parseUrl url = Except.ok v) :
    (∃ k, url.data = v.data ++ List.replicate k '/') ∧
    ∀ c, v.data.getLast? = some c → c ≠ '/' := by
  have hv : v = stripTrailingSlashes url := by
    unfold validateMarketoUrl at h
    by_cases hurl : url = ""
    · simp [hurl] at h
    · rw [if_neg hurl] at h
      cases hp : parseUrl url with
      | none => rw [hp] at h; simp at h
      | some p =>
          rw [hp] at h
          by_cases hproto : p.protocol = "https:"
          · simp [hproto] at h
            exact h.symm
          · simp [hproto] at h
  subst hv
  constructor
  · refine ⟨(url.data.reverse.takeWhile (fun c => c = '/')).reverse.length, ?_⟩
    have hsplit : url.data.reverse.takeWhile (fun c => c = '/') ++
        url.data.reverse.dropWhile (fun c => c = '/') = url.data.reverse :=
      List.takeWhile_append_dropWhile _ _
    have hrep : (url.data.reverse.takeWhile (fun c => c = '/')).reverse =
        List.replicate (url.data.reverse.takeWhile (fun c => c = '/')).reverse.length '/' := by
      refine List.eq_replicate_of_mem ?_
      intro b hb
      rw [List.mem_reverse] at hb
      simpa using List.mem_takeWhile_imp hb
    show url.data = (url.data.reverse.dropWhile (fun c => c = '/')).reverse ++
        List.replicate (url.data.reverse.takeWhile (fun c => c = '/')).reverse.length '/'
    rw [← hrep, ← List.reverse_append, hsplit, List.reverse_reverse]
  · intro c hc
    have hhead : (url.data.reverse.dropWhile (fun c => c = '/')).head? = some c := by
      rw [stripTrailingSlashes] at hc
      rw [← List.getLast?_reverse]
      simpa using hc
    have := head_dropWhileFalse (fun c => c = '/') url.data.reverse c hhead
    simpa using this

theorem validateMarketoUrl_strips_witness :
    (∃ k, ("https://x.mktorest.com///" : String).data =
      ("https://x.mktorest.com" : String).data ++ List.replicate k '/') ∧
    ∀ c, ("https://x.mktorest.com" : String).data.getLast? = some c → c ≠ '/' :=
  validateMarketoUrl_strips (fun _ => some ⟨"https:", "x.mktorest.com"⟩)
    "https://x.mktorest.com///" "https://x.mktorest.com" rfl
